import Mathlib

/-!
Shallow embedding of `mrpro.data._KTrajectory.KTrajectory` (file
`src/src/mrpro/data/_KTrajectory.py`) and the parts of its environment that
its behaviour depends on.

Tensors are modelled as a shape (list of axis sizes, outermost first) plus a
total data function from multi-indices to rationals, together with a flag
recording whether the dtype is a floating-point one.  Only the values at
valid multi-indices (componentwise below the shape) are meaningful; tensor
equality is therefore stated as agreement of shapes, dtype flags and data on
valid indices.
-/

namespace MRP

/-- Tensor model: shape, data at multi-indices and a floating-point dtype flag.
The data function is total; only indices valid for `shape` are meaningful. -/
structure Tensor where
  shape : List Nat
  data : List Nat → ℚ
  isFloat : Bool

/-- Validity of a multi-index for a shape: same length and componentwise below. -/
def IdxValid (s idx : List Nat) : Prop := List.Forall₂ (fun n i => i < n) s idx

instance (s idx : List Nat) : Decidable (IdxValid s idx) := by
  unfold IdxValid; infer_instance

/-- Bounded check of a predicate over all valid multi-indices of a shape
(the model of `torch.all` over elementwise predicates). -/
def allIdx : List Nat → (List Nat → Bool) → Bool
  | [], p => p []
  | n :: rest, p => (List.range n).all fun i => allIdx rest fun idx => p (i :: idx)

theorem allIdx_iff (s : List Nat) (p : List Nat → Bool) :
    allIdx s p = true ↔ ∀ idx, IdxValid s idx → p idx = true := by
  induction s generalizing p with
  | nil =>
      constructor
      · intro h idx hv
        cases hv
        exact h
      · intro h
        exact h [] List.Forall₂.nil
  | cons n rest ih =>
      simp only [allIdx, List.all_eq_true, List.mem_range]
      constructor
      · intro h idx hv
        cases hv with
        | cons hi htl =>
            exact ((ih _).1 (h _ hi)) _ htl
      · intro h i hi
        exact (ih _).2 fun idx hv => h (i :: idx) (List.Forall₂.cons hi hv)

/-- Pointwise broadcast of two axis sizes, numpy rules: equal sizes or one of
them is 1. -/
def broadcastDim (a b : Nat) : Option Nat :=
  if a = b then some a
  else if a = 1 then some b
  else if b = 1 then some a
  else none

/-- Pointwise broadcast of a zipped pair of equal-length shapes. -/
def broadcastZip : List (Nat × Nat) → Option (List Nat)
  | [] => some []
  | ab :: rest =>
      match broadcastDim ab.1 ab.2, broadcastZip rest with
      | some r, some rs => some (r :: rs)
      | _, _ => none

/-- Broadcast of two shapes, numpy rules: right-align, pad the shorter shape
with leading 1s, then combine pointwise. -/
def broadcast2 (s t : List Nat) : Option (List Nat) :=
  let n := max s.length t.length
  let s' := List.replicate (n - s.length) 1 ++ s
  let t' := List.replicate (n - t.length) 1 ++ t
  broadcastZip (s'.zip t')

/-- Model of `np.broadcast_shapes(kx.shape, ky.shape, kz.shape)` as used in
`KTrajectory.broadcasted_shape` (left fold over pairs, in source order). -/
def broadcastShapes (sx sy sz : List Nat) : Option (List Nat) := do
  let a ← broadcast2 sx sy
  broadcast2 a sz

/-- Embedding of the comparison `|a - b| ≤ tol` on exact rationals by integer
cross-multiplication (the denominators of `ℚ` are positive); phrased directly
over numerators and denominators so that it evaluates by kernel reduction. -/
def qAbsSubLe (a b tol : ℚ) : Bool :=
  ((a.num * (b.den : ℤ) - b.num * (a.den : ℤ)).natAbs : ℤ) * (tol.den : ℤ) ≤
    tol.num * ((a.den : ℤ) * (b.den : ℤ))

/-- Integer embedded as a rational with denominator 1. -/
def intToQ (n : ℤ) : ℚ :=
  ⟨n, 1, Nat.one_ne_zero, Nat.coprime_one_right _⟩

theorem intToQ_eq_cast (n : ℤ) : intToQ n = (n : ℚ) := by
  unfold intToQ
  rw [Rat.mk'_eq_divInt]
  simp [Rat.divInt_one]

theorem rat_mul_den (q : ℚ) : (q : ℚ) * (q.den : ℚ) = (q.num : ℚ) := by
  have hd : (0 : ℚ) < (q.den : ℚ) := by exact_mod_cast q.pos
  nth_rewrite 1 [← Rat.num_div_den q]
  exact div_mul_cancel₀ _ (ne_of_gt hd)

theorem qAbsSubLe_iff (a b tol : ℚ) : qAbsSubLe a b tol = true ↔ |a - b| ≤ tol := by
  unfold qAbsSubLe
  rw [decide_eq_true_eq]
  have had : (0 : ℚ) < (a.den : ℚ) := by exact_mod_cast a.pos
  have hbd : (0 : ℚ) < (b.den : ℚ) := by exact_mod_cast b.pos
  have htd : (0 : ℚ) < (tol.den : ℚ) := by exact_mod_cast tol.pos
  have hD : (0 : ℚ) < (a.den : ℚ) * (b.den : ℚ) := by positivity
  have hab : a - b =
      ((a.num : ℚ) * (b.den : ℚ) - (b.num : ℚ) * (a.den : ℚ)) / ((a.den : ℚ) * (b.den : ℚ)) := by
    rw [eq_div_iff (ne_of_gt hD)]
    calc (a - b) * ((a.den : ℚ) * (b.den : ℚ))
        = (a * (a.den : ℚ)) * (b.den : ℚ) - (b * (b.den : ℚ)) * (a.den : ℚ) := by ring
      _ = (a.num : ℚ) * (b.den : ℚ) - (b.num : ℚ) * (a.den : ℚ) := by
          rw [rat_mul_den a, rat_mul_den b]
  rw [hab, abs_div, abs_of_pos hD, div_le_iff hD, ← mul_le_mul_right htd]
  have hY : tol * ((a.den : ℚ) * (b.den : ℚ)) * (tol.den : ℚ) =
      (tol.num : ℚ) * ((a.den : ℚ) * (b.den : ℚ)) := by
    calc tol * ((a.den : ℚ) * (b.den : ℚ)) * (tol.den : ℚ)
        = (tol * (tol.den : ℚ)) * ((a.den : ℚ) * (b.den : ℚ)) := by ring
      _ = (tol.num : ℚ) * ((a.den : ℚ) * (b.den : ℚ)) := by rw [rat_mul_den tol]
  rw [hY]
  have hcast : ((((a.num * (b.den : ℤ) - b.num * (a.den : ℤ)).natAbs : ℤ) : ℚ)) =
      |(a.num : ℚ) * (b.den : ℚ) - (b.num : ℚ) * (a.den : ℚ)| := by
    rw [Int.cast_natCast, Int.cast_natAbs]
    push_cast
    ring_nf
  rw [← hcast]
  constructor <;> intro h <;> exact_mod_cast h

/-- Round half to even, the rounding mode of `torch.round`, on exact
rationals; phrased over numerator and denominator so that it evaluates by
kernel reduction (`Int.fdiv` is flooring division for a positive divisor). -/
def roundHalfEven (q : ℚ) : ℤ :=
  let f := Int.fdiv q.num (q.den : ℤ)
  let t := q.num - f * (q.den : ℤ)
  if 2 * t < (q.den : ℤ) then f
  else if (q.den : ℤ) < 2 * t then f + 1
  else if 2 ∣ f then f else f + 1

/-- Test whether an axis of a tensor is constant within a tolerance: every
entry is within `tol` of the entry obtained by setting that axis index to 0
(the retained representative). -/
def axisConstant (t : Tensor) (ax : Nat) (tol : ℚ) : Bool :=
  allIdx t.shape fun idx => qAbsSubLe (t.data idx) (t.data (idx.set ax 0)) tol

/-- Shape after repeat reduction: every constant-within-tolerance axis is
collapsed to length 1, the others keep their size. -/
def removeRepeatTotal (t : Tensor) (tol : ℚ) : Tensor :=
  { shape := (List.range t.shape.length).map fun ax =>
      if axisConstant t ax tol then 1 else t.shape.getD ax 0
    data := t.data
    isFloat := t.isFloat }

/-- Modelled from the spec: `mrpro.utils.remove_repeat` is imported by
`_KTrajectory.py` but its source is not in the excerpt.  Spec section 4.1: for
every axis where all values along that axis are equal within the tolerance,
collapse that axis to length 1, retaining one representative value; an axis of
length 0 must fail with an InvalidShape error rather than silently collapsing;
if the tolerance is disabled the caller skips the reducer entirely. -/
def remove_repeat (t : Tensor) (tol : ℚ) : Except String Tensor :=
  if t.shape.contains 0 then Except.error "remove_repeat: zero-length axis"
  else Except.ok (removeRepeatTotal t tol)

/-- Model of the local helper `as_any_float` in `KTrajectory.__post_init__`:
`tensor.float() if not tensor.is_floating_point() else tensor`.  Casting an
integer-typed tensor to float keeps the (exactly representable) values. -/
def asAnyFloat (t : Tensor) : Tensor :=
  if t.isFloat then t else { t with isFloat := true }

/-- Modelled from the spec: `mrpro.data.enums.TrajType` is imported by
`_KTrajectory.py` but its source is not in the excerpt.  It is a bitwise flag
enum of two independent flags (spec section 3); the two flags take distinct
single-bit values. -/
def SINGLEVALUE : Nat := 1

/-- Modelled from the spec: the second flag bit of the trajectory-type flag
enum, see `SINGLEVALUE`. -/
def ONGRID : Nat := 2

/-- Default value of `KTrajectory.grid_detection_tolerance` (source: `1e-3`,
written as an explicit reduced fraction). -/
def gridTolDefault : ℚ := ⟨1, 1000, by decide, by decide⟩

theorem gridTolDefault_eq : gridTolDefault = 1/1000 := by
  unfold gridTolDefault
  rw [Rat.mk'_eq_divInt, Rat.divInt_eq_div]
  norm_num

/-- Default value of `KTrajectory.repeat_detection_tolerance` (source: `1e-3`,
with `None` to disable modelled as `Option.none`). -/
def repeatTolDefault : Option ℚ := some ⟨1, 1000, by decide, by decide⟩

/-- Default `repeat_detection_tolerance` of `KTrajectory.from_tensor`
(source: `1e-8`, written as an explicit reduced fraction). -/
def fromTensorRepeatTolDefault : Option ℚ := some ⟨1, 100000000, by decide, by decide⟩

/-- K-space trajectory container, the model of the frozen dataclass
`KTrajectory`: three coordinate tensors and the two tolerance attributes. -/
structure KTrajectory where
  kz : Tensor
  ky : Tensor
  kx : Tensor
  grid_detection_tolerance : ℚ
  repeat_detection_tolerance : Option ℚ

/-- Model of the property `KTrajectory.broadcasted_shape`:
`np.broadcast_shapes(self.kx.shape, self.ky.shape, self.kz.shape)`, with a
`ValueError` on incompatible shapes modelled as `none`. -/
def KTrajectory.broadcasted_shape (T : KTrajectory) : Option (List Nat) :=
  broadcastShapes T.kx.shape T.ky.shape T.kz.shape

/-- Error message raised by `__post_init__` when the shapes are not
mutually broadcastable. -/
def msgBroadcast : String := "The k-space trajectory dimensions must be broadcastable."

/-- Error message raised by `__post_init__` when the broadcast shape has
fewer than 4 dimensions. -/
def msgRank : String := "The k-space trajectory tensors should each have at least 4 dimensions."

/-- Error message of the spec-modelled repeat reducer on a zero-length axis. -/
def msgZeroAxis : String := "remove_repeat: zero-length axis"

/-- Shape validation at the end of `__post_init__`: compute the broadcast
shape (a `ValueError` becomes the broadcast error message) and require at
least 4 dimensions. -/
def postChecks (kz ky kx : Tensor) (grid_tol : ℚ) (repeat_tol : Option ℚ) :
    Except String KTrajectory :=
  match broadcastShapes kx.shape ky.shape kz.shape with
  | none => Except.error msgBroadcast
  | some s =>
      if s.length < 4 then Except.error msgRank
      else Except.ok ⟨kz, ky, kx, grid_tol, repeat_tol⟩

/-- Model of constructing a `KTrajectory`, i.e. the dataclass constructor
followed by `__post_init__`: if `repeat_detection_tolerance` is not `None`,
each tensor is repeat-reduced and cast to float; then the broadcast shape is
computed and required to have at least 4 dimensions.  Python exceptions are
modelled as `Except.error`. -/
def mkKTrajectory (kz ky kx : Tensor) (grid_tol : ℚ) (repeat_tol : Option ℚ) :
    Except String KTrajectory :=
  match repeat_tol with
  | none => postChecks kz ky kx grid_tol none
  | some tol =>
      match remove_repeat kz tol with
      | Except.error e => Except.error e
      | Except.ok kz' =>
          match remove_repeat ky tol with
          | Except.error e => Except.error e
          | Except.ok ky' =>
              match remove_repeat kx tol with
              | Except.error e => Except.error e
              | Except.ok kx' =>
                  postChecks (asAnyFloat kz') (asAnyFloat ky') (asAnyFloat kx')
                    grid_tol (some tol)

/-- Model of Python negative indexing `s[-k]` into a shape tuple (used as
`ks.shape[dim]` for `dim` in `(-3, -2, -1)`): valid only when `k ≤ len(s)`,
an `IndexError` is modelled as `none`. -/
def shapeAtNeg (s : List Nat) (k : Nat) : Option Nat :=
  if k ≤ s.length then s.get? (s.length - k) else none

/-- Model of `values_on_grid` in `KTrajectory._traj_types`:
`not ks.is_floating_point() or torch.all((ks - ks.round()).abs() <= tolerance)`,
evaluated once for the whole tensor. -/
def valuesOnGrid (t : Tensor) (tol : ℚ) : Bool :=
  !t.isFloat || allIdx t.shape fun idx =>
    qAbsSubLe (t.data idx) (intToQ (roundHalfEven (t.data idx))) tol

/-- Model of one cell of the 3×3 trajectory-type matrix for the tensor `t`
and logical axis `-k` (`k` in `{3, 2, 1}` for `k2, k1, k0`): the bitwise OR
accumulated by the two `|=` statements of `_traj_types`. -/
def cellVal (t : Tensor) (tol : ℚ) (k : Nat) : Option Nat :=
  (shapeAtNeg t.shape k).map fun sz =>
    Nat.lor (if sz = 1 then Nat.lor SINGLEVALUE ONGRID else 0)
      (if valuesOnGrid t tol then ONGRID else 0)

/-- Model of one row of the trajectory-type matrix (cells for `k2, k1, k0`),
`none` when the tensor has fewer than 3 dimensions (Python `IndexError`). -/
def rowTypes (t : Tensor) (tol : ℚ) : Option (Nat × Nat × Nat) := do
  let c2 ← cellVal t tol 3
  let c1 ← cellVal t tol 2
  let c0 ← cellVal t tol 1
  pure (c2, c1, c0)

/-- Model of the full 3×3 trajectory-type matrix of `_traj_types`, rows in
`kz, ky, kx` order and columns in `k2, k1, k0` order. -/
def trajTypeMatrix (T : KTrajectory) (tol : ℚ) :
    Option ((Nat × Nat × Nat) × (Nat × Nat × Nat) × (Nat × Nat × Nat)) := do
  let rz ← rowTypes T.kz tol
  let ry ← rowTypes T.ky tol
  let rx ← rowTypes T.kx tol
  pure (rz, ry, rx)

/-- Bitwise AND of three flag values, the model of `np.bitwise_and.reduce`
over one row or one column of the 3×3 matrix. -/
def land3 (a b c : Nat) : Nat := Nat.land (Nat.land a b) c

/-- Model of `KTrajectory._traj_types`: the pair of AND-reductions of the
trajectory-type matrix along its columns (types along `kz, ky, kx`) and along
its rows (types along `k2, k1, k0`). -/
def trajTypes (T : KTrajectory) (tol : ℚ) :
    Option ((Nat × Nat × Nat) × (Nat × Nat × Nat)) :=
  (trajTypeMatrix T tol).map fun m =>
    ((land3 m.1.1 m.1.2.1 m.1.2.2,
      land3 m.2.1.1 m.2.1.2.1 m.2.1.2.2,
      land3 m.2.2.1 m.2.2.2.1 m.2.2.2.2),
     (land3 m.1.1 m.2.1.1 m.2.2.1,
      land3 m.1.2.1 m.2.1.2.1 m.2.2.2.1,
      land3 m.1.2.2 m.2.1.2.2 m.2.2.2.2))

/-- Model of the property `KTrajectory.type_along_kzyx`. -/
def KTrajectory.type_along_kzyx (T : KTrajectory) : Option (Nat × Nat × Nat) :=
  (trajTypes T T.grid_detection_tolerance).map Prod.fst

/-- Model of the property `KTrajectory.type_along_k210`. -/
def KTrajectory.type_along_k210 (T : KTrajectory) : Option (Nat × Nat × Nat) :=
  (trajTypes T T.grid_detection_tolerance).map Prod.snd

/-- Model of `torch.Tensor.expand(*shape)` onto a broadcast-compatible shape
`s`: extra leading axes of the index are dropped and size-1 axes of the
original are indexed at 0. -/
def expand (t : Tensor) (s : List Nat) : Tensor :=
  { shape := s
    data := fun idx =>
      t.data (List.zipWith (fun n i => if n = 1 then 0 else i) t.shape
        (idx.drop (s.length - t.shape.length)))
    isFloat := t.isFloat }

/-- Model of `torch.stack([a, b, c], dim=d)` for three tensors of equal shape:
the result has an extra axis of size 3 at position `d`; the dtype is floating
point when any input dtype is. -/
def stack3 (a b c : Tensor) (d : Nat) : Tensor :=
  { shape := a.shape.take d ++ 3 :: a.shape.drop d
    data := fun idx =>
      (if idx.getD d 0 = 0 then a else if idx.getD d 0 = 1 then b else c).data
        (idx.take d ++ idx.drop (d + 1))
    isFloat := a.isFloat || (b.isFloat || c.isFloat) }

/-- Model of piece `j` of `torch.unbind(t, dim=d)`: axis `d` is removed and
fixed at index `j`. -/
def unbindAt (t : Tensor) (d j : Nat) : Tensor :=
  { shape := t.shape.eraseIdx d
    data := fun idx => t.data (idx.take d ++ j :: idx.drop d)
    isFloat := t.isFloat }

/-- Model of `KTrajectory.as_tensor(stack_dim)`: expand all three tensors to
the broadcast shape and stack them along `stack_dim` in `kz, ky, kx` order.
Failures of the broadcast or of `torch.stack` on an out-of-range dimension
are modelled as `none`. -/
def KTrajectory.as_tensor (T : KTrajectory) (stack_dim : Nat) : Option Tensor :=
  T.broadcasted_shape.bind fun s =>
    if stack_dim ≤ s.length then
      some (stack3 (expand T.kz s) (expand T.ky s) (expand T.kx s) stack_dim)
    else none

/-- Model of the classmethod `KTrajectory.from_tensor`: unbind the stacked
tensor along `stack_dim`, unpack into exactly three tensors `kz, ky, kx`
(a Python `ValueError` when the axis length is not 3) and construct.  An
out-of-range `stack_dim` is a distinct error (`IndexError` in `torch`). -/
def from_tensor (t : Tensor) (stack_dim : Nat) (repeat_tol : Option ℚ)
    (grid_tol : ℚ) : Except String KTrajectory :=
  if stack_dim < t.shape.length then
    if t.shape.getD stack_dim 0 = 3 then
      mkKTrajectory (unbindAt t stack_dim 0) (unbindAt t stack_dim 1)
        (unbindAt t stack_dim 2) grid_tol repeat_tol
    else Except.error "from_tensor: expected exactly 3 tensors to unpack along stack_dim"
  else Except.error "from_tensor: stack_dim out of range"

/-- Model of `KTrajectory.to(*args, **kwargs)`: the source applies
`torch.Tensor.to` with opaque arguments to each of the three tensors and then
calls the `KTrajectory` constructor with only those three tensors, so the two
tolerance arguments take their declared defaults and `__post_init__` runs
again.  The opaque tensor conversion is the parameter `f`. -/
def KTrajectory.to_conv (T : KTrajectory) (f : Tensor → Tensor) :
    Except String KTrajectory :=
  mkKTrajectory (f T.kz) (f T.ky) (f T.kx) gridTolDefault repeatTolDefault

/-- Model of `KTrajectory.cpu` (and of `KTrajectory.cuda`): the device copy
preserves shape, dtype and values of each tensor, and the constructor is
called with only the three tensors, exactly as in `KTrajectory.to`. -/
def KTrajectory.cpu (T : KTrajectory) : Except String KTrajectory :=
  mkKTrajectory T.kz T.ky T.kx gridTolDefault repeatTolDefault

/-- Extensional equality of tensors: same shape, same dtype flag and the same
values at every valid multi-index. -/
def TensorEqv (a b : Tensor) : Prop :=
  a.shape = b.shape ∧ a.isFloat = b.isFloat ∧
    ∀ idx, IdxValid a.shape idx → a.data idx = b.data idx

/-- Executable form of `TensorEqv`. -/
def tensorBeq (a b : Tensor) : Bool :=
  a.shape = b.shape && (a.isFloat = b.isFloat &&
    allIdx a.shape fun idx => a.data idx = b.data idx)

theorem tensorBeq_iff (a b : Tensor) : tensorBeq a b = true ↔ TensorEqv a b := by
  unfold tensorBeq TensorEqv
  rw [Bool.and_eq_true, Bool.and_eq_true, allIdx_iff, decide_eq_true_iff,
    decide_eq_true_iff]
  constructor
  · rintro ⟨h1, h2, h3⟩
    exact ⟨h1, h2, fun idx hv => by exact_mod_cast decide_eq_true_iff.1 (h3 idx hv)⟩
  · rintro ⟨h1, h2, h3⟩
    exact ⟨h1, h2, fun idx hv => decide_eq_true (h3 idx hv)⟩

/-! Basic facts about the embedded operations. -/

theorem asAnyFloat_shape (t : Tensor) : (asAnyFloat t).shape = t.shape := by
  unfold asAnyFloat; split <;> rfl

theorem asAnyFloat_data (t : Tensor) : (asAnyFloat t).data = t.data := by
  unfold asAnyFloat; split <;> rfl

theorem asAnyFloat_isFloat (t : Tensor) : (asAnyFloat t).isFloat = true := by
  unfold asAnyFloat; split <;> simp_all

theorem remove_repeat_ok (t : Tensor) (tol : ℚ) (h : t.shape.contains 0 = false) :
    remove_repeat t tol = Except.ok (removeRepeatTotal t tol) := by
  unfold remove_repeat
  rw [h]
  rfl

/-! Concrete rationals and tensors used as witness inputs, written as explicit
reduced fractions so that they evaluate by kernel reduction. -/

/-- Rational constant 0. -/
def c0q : ℚ := ⟨0, 1, by decide, by decide⟩

/-- Rational constant 2/5. -/
def c25q : ℚ := ⟨2, 5, by decide, by decide⟩

/-- Rational constant 1/2. -/
def c12q : ℚ := ⟨1, 2, by decide, by decide⟩

/-- Rational constant 1/1000. -/
def c1000q : ℚ := ⟨1, 1000, by decide, by decide⟩

/-- Rational constant 1/10000. -/
def c10000q : ℚ := ⟨1, 10000, by decide, by decide⟩

/-- Witness tensor of shape `(1,1,1,2)` with float values `0` and `2/5`. -/
def tA : Tensor := ⟨[1, 1, 1, 2], fun idx => if idx.getD 3 0 = 0 then c0q else c25q, true⟩

/-- Repeat-reduced form of `tA` under the default tolerance. -/
def tApost : Tensor := asAnyFloat (removeRepeatTotal tA c1000q)

/-- Witness trajectory: the value `mkKTrajectory tA tA tA c12q (some c1000q)`
constructs. -/
def Texp : KTrajectory := ⟨tApost, tApost, tApost, c12q, some c1000q⟩

/-! Claim C6. -/

/-- C6: for every coordinate array and each of its three trailing logical
axes, if that axis has length 1 then the classification cell for that axis
carries both SINGLE_VALUE and ON_GRID, regardless of the distance of the
values to the integer grid; and SINGLE_VALUE is set only when the axis has
length 1. -/
theorem c6_single_value_axis (t : Tensor) (tol : ℚ) (k : Nat)
    (hk1 : 1 ≤ k) (hk3 : k ≤ 3) (hr : 3 ≤ t.shape.length) :
    ∃ sz c, shapeAtNeg t.shape k = some sz ∧ cellVal t tol k = some c ∧
      (sz = 1 → Nat.land c SINGLEVALUE ≠ 0 ∧ Nat.land c ONGRID ≠ 0) ∧
      (Nat.land c SINGLEVALUE ≠ 0 → sz = 1) := by
  have hk : k ≤ t.shape.length := le_trans hk3 hr
  have hlt : t.shape.length - k < t.shape.length := by omega
  obtain ⟨sz, hs⟩ : ∃ sz, shapeAtNeg t.shape k = some sz := by
    unfold shapeAtNeg
    rw [if_pos hk, List.get?_eq_get hlt]
    exact ⟨_, rfl⟩
  refine ⟨sz, Nat.lor (if sz = 1 then Nat.lor SINGLEVALUE ONGRID else 0)
      (if valuesOnGrid t tol then ONGRID else 0), hs, ?_, ?_, ?_⟩
  · unfold cellVal
    rw [hs, Option.map_some']
  · intro hsz
    rw [if_pos hsz]
    rcases h : valuesOnGrid t tol <;> exact ⟨by decide, by decide⟩
  · intro hSV
    by_contra hsz
    rw [if_neg hsz] at hSV
    rcases h : valuesOnGrid t tol <;> rw [h] at hSV <;> revert hSV <;> decide

/-- C6 witness at a concrete tensor whose single-length axes hold the
off-grid value `2/5`. -/
theorem c6_single_value_axis_witness :
    ∃ sz c, shapeAtNeg tA.shape 3 = some sz ∧ cellVal tA c10000q 3 = some c ∧
      (sz = 1 → Nat.land c SINGLEVALUE ≠ 0 ∧ Nat.land c ONGRID ≠ 0) ∧
      (Nat.land c SINGLEVALUE ≠ 0 → sz = 1) :=
  c6_single_value_axis tA c10000q 3 (by decide) (by decide) (by decide)

/-! Claim C4. -/

/-- C4: the ON_GRID flag is evaluated once for the whole array — the cell of
each trailing logical axis has ON_GRID set iff the whole-array check passes
or that axis has length 1, so all axes of length other than 1 carry the same
ON_GRID result; and the whole-array check passes iff the array is not
floating-point or every element is within the tolerance of its
rounded-to-nearest-integer value. -/
theorem c4_ongrid_whole_array (t : Tensor) (tol : ℚ) (hr : 3 ≤ t.shape.length) :
    (∀ k, 1 ≤ k → k ≤ 3 → ∃ sz c, shapeAtNeg t.shape k = some sz ∧
        cellVal t tol k = some c ∧
        (Nat.land c ONGRID ≠ 0 ↔ (valuesOnGrid t tol = true ∨ sz = 1)) ∧
        (sz ≠ 1 → (Nat.land c ONGRID ≠ 0 ↔ valuesOnGrid t tol = true))) ∧
    (valuesOnGrid t tol = true ↔
      (t.isFloat = false ∨
        ∀ idx, IdxValid t.shape idx →
          |t.data idx - (roundHalfEven (t.data idx) : ℚ)| ≤ tol)) := by
  constructor
  · intro k hk1 hk3
    have hk : k ≤ t.shape.length := le_trans hk3 hr
    have hlt : t.shape.length - k < t.shape.length := by omega
    obtain ⟨sz, hs⟩ : ∃ sz, shapeAtNeg t.shape k = some sz := by
      unfold shapeAtNeg
      rw [if_pos hk, List.get?_eq_get hlt]
      exact ⟨_, rfl⟩
    refine ⟨sz, Nat.lor (if sz = 1 then Nat.lor SINGLEVALUE ONGRID else 0)
        (if valuesOnGrid t tol then ONGRID else 0), hs, ?_, ?_, ?_⟩
    · unfold cellVal
      rw [hs, Option.map_some']
    · by_cases hsz : sz = 1 <;> rcases h : valuesOnGrid t tol <;>
        simp [hsz, h, SINGLEVALUE, ONGRID] <;> decide
    · intro hsz
      rw [if_neg hsz]
      rcases h : valuesOnGrid t tol <;> simp [h, SINGLEVALUE, ONGRID] <;> decide
  · simp only [valuesOnGrid, Bool.or_eq_true, Bool.not_eq_true', allIdx_iff]
    refine or_congr Iff.rfl (forall_congr' fun idx => imp_congr Iff.rfl ?_)
    rw [qAbsSubLe_iff, intToQ_eq_cast]

/-- C4 witness at a concrete tensor with a tolerance large enough for the
whole-array grid check to pass. -/
theorem c4_ongrid_whole_array_witness :
    ((∀ k, 1 ≤ k → k ≤ 3 → ∃ sz c, shapeAtNeg tA.shape k = some sz ∧
        cellVal tA c12q k = some c ∧
        (Nat.land c ONGRID ≠ 0 ↔ (valuesOnGrid tA c12q = true ∨ sz = 1)) ∧
        (sz ≠ 1 → (Nat.land c ONGRID ≠ 0 ↔ valuesOnGrid tA c12q = true))) ∧
      (valuesOnGrid tA c12q = true ↔
        (tA.isFloat = false ∨
          ∀ idx, IdxValid tA.shape idx →
            |tA.data idx - (roundHalfEven (tA.data idx) : ℚ)| ≤ c12q))) :=
  c4_ongrid_whole_array tA c12q (by decide)

/-! Claim C5. -/

/-- C5: the per-physical-direction classification (kz, ky, kx order) is the
bitwise AND of each row of the 3×3 flag matrix, and the per-logical-axis
classification (k2, k1, k0 order) is the bitwise AND of each column of the
same matrix. -/
theorem c5_and_reduction (T : KTrajectory)
    (m : (Nat × Nat × Nat) × (Nat × Nat × Nat) × (Nat × Nat × Nat))
    (hm : trajTypeMatrix T T.grid_detection_tolerance = some m) :
    T.type_along_kzyx = some (land3 m.1.1 m.1.2.1 m.1.2.2,
        land3 m.2.1.1 m.2.1.2.1 m.2.1.2.2,
        land3 m.2.2.1 m.2.2.2.1 m.2.2.2.2) ∧
    T.type_along_k210 = some (land3 m.1.1 m.2.1.1 m.2.2.1,
        land3 m.1.2.1 m.2.1.2.1 m.2.2.2.1,
        land3 m.1.2.2 m.2.1.2.2 m.2.2.2.2) := by
  unfold KTrajectory.type_along_kzyx KTrajectory.type_along_k210 trajTypes
  rw [hm]
  exact ⟨rfl, rfl⟩

/-- C5 witness: the reductions at a concrete trajectory whose matrix is
`((3,3,2), (3,3,2), (3,3,2))`. -/
theorem c5_and_reduction_witness :
    Texp.type_along_kzyx = some (land3 3 3 2, land3 3 3 2, land3 3 3 2) ∧
    Texp.type_along_k210 = some (land3 3 3 3, land3 3 3 3, land3 2 2 2) :=
  c5_and_reduction Texp ((3, 3, 2), (3, 3, 2), (3, 3, 2)) (by decide)

/-! Further concrete inputs. -/

/-- Rational constant 1. -/
def c1q : ℚ := ⟨1, 1, by decide, by decide⟩

/-- Rational constant -1. -/
def cm1q : ℚ := ⟨-1, 1, by decide, by decide⟩

/-- Constant-one float tensor of shape `(1,1,1,5)`. -/
def t5 : Tensor := ⟨[1, 1, 1, 5], fun _ => c1q, true⟩

/-- Constant-one float tensor of shape `(1,1,1,1)`. -/
def t1 : Tensor := ⟨[1, 1, 1, 1], fun _ => c1q, true⟩

/-- Non-constant float tensor of shape `(1,1,1,3)` with values `0, 10, 20`. -/
def t3 : Tensor := ⟨[1, 1, 1, 3], fun idx => intToQ (10 * (idx.getD 3 0 : ℤ)), true⟩

/-- Integer-typed tensor of shape `(1,1,1,2)` with values `0` and `1`. -/
def tInt : Tensor := ⟨[1, 1, 1, 2], fun idx => intToQ (idx.getD 3 0 : ℤ), false⟩

/-! Claim C3. -/

/-- C3 counterexample: constructing with the non-positive tolerances `-1`
(both the grid-detection and the repeat-detection one) raises no error at
all — construction succeeds, refuting the claim that construction raises an
InvalidParameter error for non-positive tolerances. -/
theorem c3_counterexample :
    (mkKTrajectory tA tA tA cm1q (some cm1q)).isOk = true := by decide

theorem remove_repeat_error (t : Tensor) (tol : ℚ) (e : String)
    (h : remove_repeat t tol = Except.error e) : e = msgZeroAxis := by
  unfold remove_repeat at h
  split at h
  · injection h with h2
    rw [← h2]
    rfl
  · exact Except.noConfusion h

theorem postChecks_error (kz ky kx : Tensor) (g : ℚ) (r : Option ℚ) (e : String)
    (h : postChecks kz ky kx g r = Except.error e) : e = msgBroadcast ∨ e = msgRank := by
  unfold postChecks at h
  repeat' split at h
  all_goals first
    | exact Except.noConfusion h
    | (injection h with h2; rw [← h2]; decide)

/-- C3 amended: construction performs no tolerance validation; every
construction failure carries one of the three shape-related messages, so no
error at all is raised for non-positive or otherwise invalid tolerances. -/
theorem c3_no_tolerance_validation (kz ky kx : Tensor) (g : ℚ) (r : Option ℚ)
    (e : String) (h : mkKTrajectory kz ky kx g r = Except.error e) :
    e = msgZeroAxis ∨ e = msgBroadcast ∨ e = msgRank := by
  rcases r with _ | tol
  · simp only [mkKTrajectory] at h
    exact Or.inr (postChecks_error _ _ _ _ _ _ h)
  · simp only [mkKTrajectory] at h
    rcases hz : remove_repeat kz tol with ez | kz'
    · simp only [hz] at h
      injection h with h2
      rw [← h2]
      exact Or.inl (remove_repeat_error kz tol ez hz)
    · simp only [hz] at h
      rcases hy : remove_repeat ky tol with ey | ky'
      · simp only [hy] at h
        injection h with h2
        rw [← h2]
        exact Or.inl (remove_repeat_error ky tol ey hy)
      · simp only [hy] at h
        rcases hx : remove_repeat kx tol with ex | kx'
        · simp only [hx] at h
          injection h with h2
          rw [← h2]
          exact Or.inl (remove_repeat_error kx tol ex hx)
        · simp only [hx] at h
          exact Or.inr (postChecks_error _ _ _ _ _ _ h)

/-- C3 amended witness: a concrete failing construction whose message is the
broadcast one. -/
theorem c3_no_tolerance_validation_witness :
    msgBroadcast = msgZeroAxis ∨ msgBroadcast = msgBroadcast ∨ msgBroadcast = msgRank :=
  c3_no_tolerance_validation t5 t1 t3 c1q none msgBroadcast rfl

/-! Claim C10. -/

/-- C10: when `repeat_detection_tolerance` is `None`, construction stores the
three tensors exactly as passed (in particular integer-typed tensors are not
promoted to float), while on the tolerance-enabled path all three stored
tensors are floating point. -/
theorem c10_none_stores_as_passed (kz ky kx : Tensor) (g : ℚ) :
    (∀ T, mkKTrajectory kz ky kx g none = Except.ok T →
        T.kz = kz ∧ T.ky = ky ∧ T.kx = kx) ∧
    (∀ r T', mkKTrajectory kz ky kx g (some r) = Except.ok T' →
        T'.kz.isFloat = true ∧ T'.ky.isFloat = true ∧ T'.kx.isFloat = true) := by
  constructor
  · intro T h
    simp only [mkKTrajectory] at h
    unfold postChecks at h
    repeat' split at h
    all_goals first
      | exact Except.noConfusion h
      | (injection h with h2; rw [← h2]; exact ⟨rfl, rfl, rfl⟩)
  · intro r T' h
    simp only [mkKTrajectory] at h
    unfold postChecks at h
    repeat' split at h
    all_goals first
      | exact Except.noConfusion h
      | (injection h with h2; rw [← h2];
         exact ⟨asAnyFloat_isFloat _, asAnyFloat_isFloat _, asAnyFloat_isFloat _⟩)

/-- Trajectory stored by the `None`-tolerance construction from `tInt`. -/
def TN : KTrajectory := ⟨tInt, tInt, tInt, c1q, none⟩

/-- Trajectory stored by the tolerance-enabled construction from `tInt`. -/
def TS : KTrajectory :=
  ⟨asAnyFloat (removeRepeatTotal tInt c1q), asAnyFloat (removeRepeatTotal tInt c1q),
    asAnyFloat (removeRepeatTotal tInt c1q), c1q, some c1q⟩

/-- C10 witness: at the integer tensor `tInt`, the `None` path stores the
tensors unchanged, the enabled path stores float tensors. -/
theorem c10_none_stores_as_passed_witness :
    (TN.kz = tInt ∧ TN.ky = tInt ∧ TN.kx = tInt) ∧
    (TS.kz.isFloat = true ∧ TS.ky.isFloat = true ∧ TS.kx.isFloat = true) :=
  ⟨(c10_none_stores_as_passed tInt tInt tInt c1q).1 TN rfl,
   (c10_none_stores_as_passed tInt tInt tInt c1q).2 c1q TS rfl⟩

/-! Claim C1. -/

/-- Tensor with float values `0` and `1/10000` on its last axis. -/
def tB : Tensor := ⟨[1, 1, 1, 2], fun idx => if idx.getD 3 0 = 0 then c0q else c10000q, true⟩

/-- Trajectory built from `tB` with repeat detection disabled and a custom
grid tolerance. -/
def TB : KTrajectory := ⟨tB, tB, tB, c12q, none⟩

/-- Repeat-reduced float form of `tB` at the default tolerance. -/
def tBred : Tensor := asAnyFloat (removeRepeatTotal tB c1000q)

/-- Result of `KTrajectory.cpu TB` under the constructor defaults. -/
def TBcpu : KTrajectory := ⟨tBred, tBred, tBred, gridTolDefault, repeatTolDefault⟩

/-- C1 evaluation at the failing input: `TB` is a constructed trajectory
(grid tolerance `1/2`, repeat detection disabled), yet its device-conversion
copy has both tolerance attributes reset to the defaults and its arrays
repeat-reduced a second time (the kz shape collapses from `(1,1,1,2)` to
`(1,1,1,1)`), refuting the claim that conversions copy the tolerances and do
not re-trigger repeat reduction. -/
theorem c1_conversion_resets_attributes :
    mkKTrajectory tB tB tB c12q none = Except.ok TB ∧
    KTrajectory.cpu TB = Except.ok TBcpu ∧
    TBcpu.grid_detection_tolerance ≠ TB.grid_detection_tolerance ∧
    TBcpu.repeat_detection_tolerance ≠ TB.repeat_detection_tolerance ∧
    TBcpu.kz.shape ≠ TB.kz.shape := by
  refine ⟨rfl, rfl, ?_, ?_, ?_⟩ <;> decide

/-! Claim C2. -/

/-- C2 evaluation at the failing input: `Texp` is a constructed trajectory
with grid tolerance `1/2`; its device-conversion copy classifies with the
default tolerance `1/1000` instead, so the classification of the copy
differs from the classification of the original even though the conversion
preserves all tensor values exactly. -/
theorem c2_classification_not_invariant :
    mkKTrajectory tA tA tA c12q (some c1000q) = Except.ok Texp ∧
    (KTrajectory.cpu Texp).toOption.map KTrajectory.type_along_kzyx ≠
      some Texp.type_along_kzyx := by
  refine ⟨rfl, ?_⟩
  decide

/-! Claim C8. -/

/-- C8: `from_tensor` splits the stacked tensor along the chosen axis into
exactly the three unbind pieces, assigned in order `(kz, ky, kx)`, and then
applies the three-array construction path; whenever the chosen (in-range)
axis does not have length exactly 3, it fails. -/
theorem c8_from_tensor_split (t : Tensor) (d : Nat) (r : Option ℚ) (g : ℚ)
    (hd : d < t.shape.length) :
    (t.shape.getD d 0 = 3 →
      from_tensor t d r g =
        mkKTrajectory (unbindAt t d 0) (unbindAt t d 1) (unbindAt t d 2) g r) ∧
    (t.shape.getD d 0 ≠ 3 → ∃ e, from_tensor t d r g = Except.error e) := by
  constructor
  · intro h3
    unfold from_tensor
    rw [if_pos hd, if_pos h3]
  · intro h3
    unfold from_tensor
    rw [if_pos hd, if_neg h3]
    exact ⟨_, rfl⟩

/-- Stacked witness tensor of shape `(3,1,1,1,2)`. -/
def tStack : Tensor :=
  ⟨[3, 1, 1, 1, 2], fun idx => intToQ ((idx.getD 0 0 : ℤ) + (idx.getD 4 0 : ℤ)), true⟩

/-- C8 witness: at a concrete `(3,1,1,1,2)` tensor, splitting along axis 0
applies the three-array constructor to the three unbind pieces, and splitting
along axis 1 (whose length is 1, not 3) fails. -/
theorem c8_from_tensor_split_witness :
    from_tensor tStack 0 fromTensorRepeatTolDefault gridTolDefault =
      mkKTrajectory (unbindAt tStack 0 0) (unbindAt tStack 0 1) (unbindAt tStack 0 2)
        gridTolDefault fromTensorRepeatTolDefault ∧
    ∃ e, from_tensor tStack 1 fromTensorRepeatTolDefault gridTolDefault = Except.error e :=
  ⟨(c8_from_tensor_split tStack 0 fromTensorRepeatTolDefault gridTolDefault
      (by decide)).1 (by decide),
   (c8_from_tensor_split tStack 1 fromTensorRepeatTolDefault gridTolDefault
      (by decide)).2 (by decide)⟩

/-! Claim C7. -/

/-- Arrays held by the container at the end of `__post_init__`, before the
shape checks: the inputs themselves when repeat detection is disabled, their
repeat-reduced float forms otherwise. -/
def storedArrays (kz ky kx : Tensor) (r : Option ℚ) : Tensor × Tensor × Tensor :=
  match r with
  | none => (kz, ky, kx)
  | some tol =>
      (asAnyFloat (removeRepeatTotal kz tol), asAnyFloat (removeRepeatTotal ky tol),
        asAnyFloat (removeRepeatTotal kx tol))

theorem mk_eq_postChecks (kz ky kx : Tensor) (g : ℚ) (r : Option ℚ)
    (hz : kz.shape.contains 0 = false) (hy : ky.shape.contains 0 = false)
    (hx : kx.shape.contains 0 = false) :
    mkKTrajectory kz ky kx g r =
      postChecks (storedArrays kz ky kx r).1 (storedArrays kz ky kx r).2.1
        (storedArrays kz ky kx r).2.2 g r := by
  rcases r with _ | tol
  · rfl
  · simp only [mkKTrajectory, storedArrays,
      remove_repeat_ok kz tol hz, remove_repeat_ok ky tol hy,
      remove_repeat_ok kx tol hx]

theorem postChecks_error_iff (kz ky kx : Tensor) (g : ℚ) (r : Option ℚ) :
    (∃ e, postChecks kz ky kx g r = Except.error e) ↔
      (broadcastShapes kx.shape ky.shape kz.shape = none ∨
        ∃ s, broadcastShapes kx.shape ky.shape kz.shape = some s ∧ s.length < 4) := by
  unfold postChecks
  rcases hb : broadcastShapes kx.shape ky.shape kz.shape with _ | s
  · simp only [hb]
    exact ⟨fun _ => Or.inl trivial, fun _ => ⟨msgBroadcast, rfl⟩⟩
  · simp only [hb]
    by_cases hlen : s.length < 4
    · rw [if_pos hlen]
      exact ⟨fun _ => Or.inr ⟨s, rfl, hlen⟩, fun _ => ⟨msgRank, rfl⟩⟩
    · rw [if_neg hlen]
      constructor
      · rintro ⟨e, he⟩
        exact Except.noConfusion he
      · rintro (hcontra | ⟨s', hs', hlen'⟩)
        · exact Option.noConfusion hcontra
        · rw [Option.some_inj] at hs'
          exact absurd (hs' ▸ hlen') hlen

/-- C7 corrected: for arrays without zero-length axes, construction fails
exactly when the arrays as stored (after repeat reduction, when enabled) are
not mutually broadcastable or their broadcast rank is below 4; every such
failure is eager, and the error message is one of two fixed strings that name
no dimensions or shapes (they contain no digits at all). -/
theorem c7_shape_error_characterisation (kz ky kx : Tensor) (g : ℚ) (r : Option ℚ)
    (hz : kz.shape.contains 0 = false) (hy : ky.shape.contains 0 = false)
    (hx : kx.shape.contains 0 = false) :
    ((∃ e, mkKTrajectory kz ky kx g r = Except.error e) ↔
      (broadcastShapes (storedArrays kz ky kx r).2.2.shape
          (storedArrays kz ky kx r).2.1.shape (storedArrays kz ky kx r).1.shape = none ∨
        ∃ s, broadcastShapes (storedArrays kz ky kx r).2.2.shape
            (storedArrays kz ky kx r).2.1.shape (storedArrays kz ky kx r).1.shape = some s ∧
          s.length < 4)) ∧
    ((∀ e, mkKTrajectory kz ky kx g r = Except.error e → e = msgBroadcast ∨ e = msgRank) ∧
      msgBroadcast.toList.all (fun ch => !ch.isDigit) = true) := by
  rw [mk_eq_postChecks kz ky kx g r hz hy hx]
  refine ⟨postChecks_error_iff _ _ _ _ _, ?_, by decide⟩
  intro e he
  exact postChecks_error _ _ _ _ _ _ he

/-- C7 counterexample: with the default (enabled) repeat tolerance, the
constant array of shape `(1,1,1,5)` constructs successfully against a
non-constant `(1,1,1,3)` array even though the two supplied shapes are not
broadcast-compatible (reduction collapses the `5` axis first); and when the
same shapes do fail (repeat detection disabled), the error message is a fixed
sentence containing no digits, hence naming neither the offending axis nor
the shapes. -/
theorem c7_counterexample :
    (mkKTrajectory t5 t1 t3 gridTolDefault (some c1000q)).isOk = true ∧
    mkKTrajectory t5 t1 t3 gridTolDefault none = Except.error msgBroadcast ∧
    msgBroadcast.toList.all (fun ch => !ch.isDigit) = true := by
  refine ⟨by decide, rfl, by decide⟩

/-! List lemmas supporting the round-trip claim. -/

theorem getD_append_len (xs ys : List Nat) (j : Nat) :
    (xs ++ j :: ys).getD xs.length 0 = j := by
  induction xs with
  | nil => rfl
  | cons x xs ih => simpa [List.getD_cons_succ] using ih

theorem eraseIdx_append_len (xs ys : List Nat) (j : Nat) :
    (xs ++ j :: ys).eraseIdx xs.length = xs ++ ys := by
  induction xs with
  | nil => rfl
  | cons x xs ih => simpa [List.eraseIdx_cons_succ] using ih

theorem drop_append_len (xs ys : List Nat) (j : Nat) :
    (xs ++ j :: ys).drop (xs.length + 1) = ys := by
  have h1 : xs ++ j :: ys = (xs ++ [j]) ++ ys := by simp
  have h2 : xs.length + 1 = (xs ++ [j]).length := by simp
  rw [h1, h2, List.drop_left]

/-! Properties of stacking and unbinding. -/

theorem unbind_stack_shape (a b c : Tensor) (d j : Nat) (hd : d ≤ a.shape.length) :
    (unbindAt (stack3 a b c d) d j).shape = a.shape := by
  have hl : (a.shape.take d).length = d := by rw [List.length_take]; omega
  have h2 : ∀ (xs ys : List Nat), xs.length = d →
      (xs ++ 3 :: ys).eraseIdx d = xs ++ ys := by
    intro xs ys hxs
    rw [← hxs, eraseIdx_append_len]
  show (a.shape.take d ++ 3 :: a.shape.drop d).eraseIdx d = a.shape
  rw [h2 _ _ hl, List.take_append_drop]

theorem stack_data_at (a b c : Tensor) (d j : Nat) (u w : List Nat)
    (hu : u.length = d) :
    (stack3 a b c d).data (u ++ j :: w) =
      (if j = 0 then a else if j = 1 then b else c).data (u ++ w) := by
  unfold stack3
  simp only []
  rw [← hu, getD_append_len, List.take_left, drop_append_len]

theorem unbind_stack_data (a b c : Tensor) (d j : Nat) (idx : List Nat)
    (h : d ≤ idx.length) :
    (unbindAt (stack3 a b c d) d j).data idx =
      (if j = 0 then a else if j = 1 then b else c).data idx := by
  have hl : (idx.take d).length = d := by rw [List.length_take]; omega
  show (stack3 a b c d).data (idx.take d ++ j :: idx.drop d) = _
  rw [stack_data_at a b c d j _ _ hl, List.take_append_drop]

/-! Shape arithmetic for broadcasting reduced sub-shapes. -/

/-- Shape `p` refines `s` pointwise: each entry of `p` is 1 or the
corresponding entry of `s`. -/
def SubShape (s p : List Nat) : Prop :=
  List.Forall₂ (fun si pi => pi = 1 ∨ pi = si) s p

theorem SubShape.refl (s : List Nat) : SubShape s s :=
  List.forall₂_same.2 fun _ _ => Or.inr rfl

theorem broadcastDim_sub (si pi qi : Nat) (hp : pi = 1 ∨ pi = si)
    (hq : qi = 1 ∨ qi = si) :
    ∃ ri, broadcastDim pi qi = some ri ∧ (ri = 1 ∨ ri = si) := by
  rcases hp with rfl | rfl <;> rcases hq with rfl | rfl <;>
    unfold broadcastDim <;> split_ifs <;>
      first
        | exact ⟨_, rfl, Or.inl rfl⟩
        | exact ⟨_, rfl, Or.inr rfl⟩
        | simp_all

theorem zip_broadcastZip_sub {s p q : List Nat} (hp : SubShape s p)
    (hq : SubShape s q) :
    ∃ r, broadcastZip (p.zip q) = some r ∧ SubShape s r := by
  induction hp generalizing q with
  | nil =>
      cases hq
      exact ⟨[], rfl, List.Forall₂.nil⟩
  | @cons si pi ss ps hi _ ih =>
      cases hq with
      | cons hqi hqs =>
          obtain ⟨ri, hri, hris⟩ := broadcastDim_sub si pi _ hi hqi
          obtain ⟨rr, hrr, hrrs⟩ := ih hqs
          refine ⟨ri :: rr, ?_, List.Forall₂.cons hris hrrs⟩
          rw [List.zip_cons_cons]
          unfold broadcastZip
          rw [hri, hrr]

theorem broadcast2_sub {s p q : List Nat} (hp : SubShape s p) (hq : SubShape s q) :
    ∃ r, broadcast2 p q = some r ∧ SubShape s r := by
  have hpl : p.length = s.length := hp.length_eq.symm
  have hql : q.length = s.length := hq.length_eq.symm
  obtain ⟨r, hr, hrs⟩ := zip_broadcastZip_sub hp hq
  refine ⟨r, ?_, hrs⟩
  unfold broadcast2
  simp [hpl, hql, hr]

theorem broadcastShapes_sub {s p q u : List Nat} (hp : SubShape s p)
    (hq : SubShape s q) (hu : SubShape s u) :
    ∃ bs, broadcastShapes p q u = some bs ∧ SubShape s bs := by
  obtain ⟨r1, hr1, hr1s⟩ := broadcast2_sub hp hq
  obtain ⟨r2, hr2, hr2s⟩ := broadcast2_sub hr1s hu
  refine ⟨r2, ?_, hr2s⟩
  unfold broadcastShapes
  rw [hr1]
  exact hr2

theorem removeRepeatTotal_sub (t : Tensor) (tol : ℚ) :
    SubShape t.shape (removeRepeatTotal t tol).shape := by
  unfold removeRepeatTotal SubShape
  simp only []
  rw [List.forall₂_iff_get]
  constructor
  · simp
  · intro i h1 h2
    simp only [List.get_eq_getElem, List.getElem_map, List.getElem_range]
    split
    · exact Or.inl rfl
    · exact Or.inr (List.getD_eq_getElem _ _ h1)

/-! Index-validity lemmas. -/

theorem contains_false_not_mem {s : List Nat} (h : s.contains 0 = false) : 0 ∉ s := by
  simpa using h

theorem IdxValid_of_sub {s p idx : List Nat} (hsub : SubShape s p) (hpos : 0 ∉ s)
    (h : IdxValid p idx) : IdxValid s idx := by
  unfold IdxValid at *
  unfold SubShape at hsub
  induction hsub generalizing idx with
  | nil =>
      cases h
      exact List.Forall₂.nil
  | @cons si pi ss ps hi _ ih =>
      cases h with
      | cons hpi hps =>
          refine List.Forall₂.cons ?_
            (ih (fun hmem => hpos (List.mem_cons_of_mem _ hmem)) hps)
          rcases hi with rfl | rfl
          · have hsi : si ≠ 0 := fun h0 => hpos (h0 ▸ List.mem_cons_self _ _)
            omega
          · exact hpi

theorem IdxValid_set_zero {s idx : List Nat} (ax : Nat) (h : IdxValid s idx) :
    IdxValid s (idx.set ax 0) := by
  unfold IdxValid at *
  induction h generalizing ax with
  | nil =>
      simp only [List.set_nil]
      exact List.Forall₂.nil
  | @cons n i ns is hi _ ih =>
      cases ax with
      | zero => exact List.Forall₂.cons (by omega) (by assumption)
      | succ ax => exact List.Forall₂.cons hi (ih ax)

theorem IdxValid_length {s idx : List Nat} (h : IdxValid s idx) :
    idx.length = s.length :=
  h.length_eq.symm

/-! Congruence of the repeat reducer under extensional tensor equality. -/

theorem axisConstant_congr (a b : Tensor) (ax : Nat) (tol : ℚ)
    (hs : a.shape = b.shape)
    (hd : ∀ idx, IdxValid a.shape idx → a.data idx = b.data idx) :
    axisConstant a ax tol = axisConstant b ax tol := by
  unfold axisConstant
  rw [← hs]
  refine Bool.eq_iff_iff.2 ?_
  rw [allIdx_iff, allIdx_iff]
  constructor <;> intro h idx hv <;>
    [rw [← hd idx hv, ← hd (idx.set ax 0) (IdxValid_set_zero ax hv)];
     rw [hd idx hv, hd (idx.set ax 0) (IdxValid_set_zero ax hv)]] <;>
    exact h idx hv

theorem removeRepeatTotal_congr (a b : Tensor) (tol : ℚ)
    (hpos : 0 ∉ a.shape) (hs : a.shape = b.shape)
    (hd : ∀ idx, IdxValid a.shape idx → a.data idx = b.data idx) :
    (removeRepeatTotal a tol).shape = (removeRepeatTotal b tol).shape ∧
    ∀ idx, IdxValid (removeRepeatTotal a tol).shape idx →
      (removeRepeatTotal a tol).data idx = (removeRepeatTotal b tol).data idx := by
  constructor
  · show (List.range a.shape.length).map _ = (List.range b.shape.length).map _
    rw [← hs]
    refine List.map_congr_left fun ax _ => ?_
    rw [axisConstant_congr a b ax tol hs hd, hs]
  · intro idx hv
    have hv' : IdxValid a.shape idx :=
      IdxValid_of_sub (removeRepeatTotal_sub a tol) hpos hv
    exact hd idx hv'

theorem eqv_asAnyFloat_removeRepeatTotal (a b : Tensor) (tol : ℚ)
    (hpos : 0 ∉ a.shape) (hs : a.shape = b.shape)
    (hd : ∀ idx, IdxValid a.shape idx → a.data idx = b.data idx) :
    TensorEqv (asAnyFloat (removeRepeatTotal a tol))
      (asAnyFloat (removeRepeatTotal b tol)) := by
  obtain ⟨hshape, hdata⟩ := removeRepeatTotal_congr a b tol hpos hs hd
  refine ⟨?_, ?_, ?_⟩
  · rw [asAnyFloat_shape, asAnyFloat_shape, hshape]
  · rw [asAnyFloat_isFloat, asAnyFloat_isFloat]
  · intro idx hv
    rw [asAnyFloat_shape] at hv
    rw [asAnyFloat_data, asAnyFloat_data]
    exact hdata idx hv

/-! Claim C9. -/

/-- C9: for every trajectory whose broadcast shape exists, has rank at least 4
and no zero-length axis, exporting with `as_tensor` and reconstructing with
`from_tensor` along the same axis succeeds, and the three arrays of the
reconstruction are extensionally equal to the originals after broadcasting to
the common shape and repeat reduction (with float promotion). -/
theorem c9_roundtrip (T : KTrajectory) (s : List Nat) (d : Nat) (r g : ℚ)
    (h1 : T.broadcasted_shape = some s) (h2 : 4 ≤ s.length)
    (h3 : s.contains 0 = false) (h4 : d ≤ s.length) :
    ∃ U T', T.as_tensor d = some U ∧
      from_tensor U d (some r) g = Except.ok T' ∧
      TensorEqv T'.kz (asAnyFloat (removeRepeatTotal (expand T.kz s) r)) ∧
      TensorEqv T'.ky (asAnyFloat (removeRepeatTotal (expand T.ky s) r)) ∧
      TensorEqv T'.kx (asAnyFloat (removeRepeatTotal (expand T.kx s) r)) := by
  have hes : (expand T.kz s).shape = s := rfl
  have hns : 0 ∉ s := contains_false_not_mem h3
  have hU : T.as_tensor d =
      some (stack3 (expand T.kz s) (expand T.ky s) (expand T.kx s) d) := by
    unfold KTrajectory.as_tensor
    rw [h1]
    show (if d ≤ s.length then _ else _) = _
    rw [if_pos h4]
  have hl : (s.take d).length = d := by rw [List.length_take]; omega
  have hUshape : (stack3 (expand T.kz s) (expand T.ky s) (expand T.kx s) d).shape =
      s.take d ++ 3 :: s.drop d := rfl
  have hUlen : (stack3 (expand T.kz s) (expand T.ky s) (expand T.kx s) d).shape.length =
      s.length + 1 := by
    rw [hUshape]
    simp only [List.length_append, List.length_cons, List.length_take, List.length_drop]
    omega
  have hd' : d < (stack3 (expand T.kz s) (expand T.ky s) (expand T.kx s) d).shape.length := by
    omega
  have hget : (stack3 (expand T.kz s) (expand T.ky s) (expand T.kx s) d).shape.getD d 0 = 3 := by
    rw [hUshape]
    have haux : ∀ (xs ys : List Nat), xs.length = d →
        (xs ++ (3 : Nat) :: ys).getD d 0 = 3 := by
      intro xs ys hxs
      rw [← hxs, getD_append_len]
    exact haux _ _ hl
  have hu : ∀ j, (unbindAt (stack3 (expand T.kz s) (expand T.ky s) (expand T.kx s) d) d j).shape
      = s := by
    intro j
    exact unbind_stack_shape (expand T.kz s) (expand T.ky s) (expand T.kx s) d j h4
  have hcont : ∀ j,
      (unbindAt (stack3 (expand T.kz s) (expand T.ky s) (expand T.kx s) d) d j).shape.contains 0
        = false := by
    intro j
    rw [hu j]
    exact h3
  have hsub : ∀ j, SubShape s (asAnyFloat (removeRepeatTotal
      (unbindAt (stack3 (expand T.kz s) (expand T.ky s) (expand T.kx s) d) d j) r)).shape := by
    intro j
    rw [asAnyFloat_shape]
    have hx := removeRepeatTotal_sub
      (unbindAt (stack3 (expand T.kz s) (expand T.ky s) (expand T.kx s) d) d j) r
    rwa [hu j] at hx
  obtain ⟨bs, hbs, hbssub⟩ := broadcastShapes_sub (hsub 2) (hsub 1) (hsub 0)
  have hbslen : s.length = bs.length := hbssub.length_eq
  have hmk : mkKTrajectory
      (unbindAt (stack3 (expand T.kz s) (expand T.ky s) (expand T.kx s) d) d 0)
      (unbindAt (stack3 (expand T.kz s) (expand T.ky s) (expand T.kx s) d) d 1)
      (unbindAt (stack3 (expand T.kz s) (expand T.ky s) (expand T.kx s) d) d 2) g (some r) =
      Except.ok ⟨asAnyFloat (removeRepeatTotal
          (unbindAt (stack3 (expand T.kz s) (expand T.ky s) (expand T.kx s) d) d 0) r),
        asAnyFloat (removeRepeatTotal
          (unbindAt (stack3 (expand T.kz s) (expand T.ky s) (expand T.kx s) d) d 1) r),
        asAnyFloat (removeRepeatTotal
          (unbindAt (stack3 (expand T.kz s) (expand T.ky s) (expand T.kx s) d) d 2) r),
        g, some r⟩ := by
    simp only [mkKTrajectory, remove_repeat_ok _ r (hcont 0), remove_repeat_ok _ r (hcont 1),
      remove_repeat_ok _ r (hcont 2)]
    unfold postChecks
    simp only [hbs]
    rw [if_neg (by omega : ¬ bs.length < 4)]
  refine ⟨stack3 (expand T.kz s) (expand T.ky s) (expand T.kx s) d,
    ⟨asAnyFloat (removeRepeatTotal
        (unbindAt (stack3 (expand T.kz s) (expand T.ky s) (expand T.kx s) d) d 0) r),
      asAnyFloat (removeRepeatTotal
        (unbindAt (stack3 (expand T.kz s) (expand T.ky s) (expand T.kx s) d) d 1) r),
      asAnyFloat (removeRepeatTotal
        (unbindAt (stack3 (expand T.kz s) (expand T.ky s) (expand T.kx s) d) d 2) r),
      g, some r⟩, hU, ?_, ?_, ?_, ?_⟩
  · unfold from_tensor
    rw [if_pos hd', if_pos hget]
    exact hmk
  · apply eqv_asAnyFloat_removeRepeatTotal
    · rw [hu 0]
      exact hns
    · rw [hu 0]
      rfl
    · intro idx hv
      have hlen := IdxValid_length hv
      rw [hu 0] at hlen
      have hdle : d ≤ idx.length := by omega
      have hx := unbind_stack_data (expand T.kz s) (expand T.ky s) (expand T.kx s) d 0 idx hdle
      simpa using hx
  · apply eqv_asAnyFloat_removeRepeatTotal
    · rw [hu 1]
      exact hns
    · rw [hu 1]
      rfl
    · intro idx hv
      have hlen := IdxValid_length hv
      rw [hu 1] at hlen
      have hdle : d ≤ idx.length := by omega
      have hx := unbind_stack_data (expand T.kz s) (expand T.ky s) (expand T.kx s) d 1 idx hdle
      simpa using hx
  · apply eqv_asAnyFloat_removeRepeatTotal
    · rw [hu 2]
      exact hns
    · rw [hu 2]
      rfl
    · intro idx hv
      have hlen := IdxValid_length hv
      rw [hu 2] at hlen
      have hdle : d ≤ idx.length := by omega
      have hx := unbind_stack_data (expand T.kz s) (expand T.ky s) (expand T.kx s) d 2 idx hdle
      simpa using hx

/-- C9 witness: the round trip at the concrete constructed trajectory `Texp`
with stack axis 0. -/
theorem c9_roundtrip_witness :
    ∃ U T', Texp.as_tensor 0 = some U ∧
      from_tensor U 0 (some c1000q) gridTolDefault = Except.ok T' ∧
      TensorEqv T'.kz (asAnyFloat (removeRepeatTotal (expand Texp.kz [1, 1, 1, 2]) c1000q)) ∧
      TensorEqv T'.ky (asAnyFloat (removeRepeatTotal (expand Texp.ky [1, 1, 1, 2]) c1000q)) ∧
      TensorEqv T'.kx (asAnyFloat (removeRepeatTotal (expand Texp.kx [1, 1, 1, 2]) c1000q)) :=
  c9_roundtrip Texp [1, 1, 1, 2] 0 c1000q gridTolDefault (by decide) (by decide)
    (by decide) (by decide)

/-- C7 witness: the characterisation applied at the concrete non-broadcastable
input with repeat detection disabled. -/
theorem c7_shape_error_characterisation_witness :
    ((∃ e, mkKTrajectory t5 t1 t3 gridTolDefault none = Except.error e) ↔
      (broadcastShapes (storedArrays t5 t1 t3 none).2.2.shape
          (storedArrays t5 t1 t3 none).2.1.shape (storedArrays t5 t1 t3 none).1.shape = none ∨
        ∃ s, broadcastShapes (storedArrays t5 t1 t3 none).2.2.shape
            (storedArrays t5 t1 t3 none).2.1.shape (storedArrays t5 t1 t3 none).1.shape = some s ∧
          s.length < 4)) ∧
    ((∀ e, mkKTrajectory t5 t1 t3 gridTolDefault none = Except.error e →
        e = msgBroadcast ∨ e = msgRank) ∧
      msgBroadcast.toList.all (fun ch => !ch.isDigit) = true) :=
  c7_shape_error_characterisation t5 t1 t3 gridTolDefault none (by decide) (by decide) (by decide)

end MRP
